import Mathlib

/-!
# Verification of the azuro-twitter-scheduler scheduling engine

Shallow embedding of the per-league scheduling engine of
`azuro-twitter-scheduler` (source files `scheduler.ts`, `azuro.ts`,
`twitter.ts`, `config.ts`), together with theorems settling the frozen
claims about its natural-language specification.

Modelling conventions:
* Instants and durations are milliseconds since the Unix epoch, as `Nat`
  (or `Int` where the source's arithmetic can go negative).
* The host machine's local timezone is modelled as a fixed offset `off`
  in milliseconds east of UTC: JavaScript's `Date.prototype.setHours`
  writes wall-clock fields of the host local zone, which for a fixed
  offset zone is exactly `(now + off) % day`.
* External collaborators (the GraphQL fetch, `Intl.DateTimeFormat`,
  `fs.existsSync`, `Math.random`, the Twitter scraper) are modelled as
  explicit oracle parameters; the code under verification is translated
  statement by statement.
-/

namespace AzuroScheduler

/-- One day in milliseconds; also the literal `24 * 60 * 60 * 1000` passed
to `setInterval` in `setupLeagueScheduler` (scheduler.ts line 381). -/
def day : Nat := 24 * 60 * 60 * 1000

/-- The wait computed by `AzuroScheduler.setupLeagueScheduler`
(scheduler.ts lines 362–371):

```
const now = new Date();
const targetTime = new Date(now);
targetTime.setHours(config.fetchHour, config.fetchMinute, 0, 0);
if (now > targetTime) { targetTime.setDate(targetTime.getDate() + 1); }
const timeUntilNextFetch = targetTime.getTime() - now.getTime();
```

`setHours` interprets `fetchHour:fetchMinute` in the HOST's local
timezone (modelled as the fixed offset `off` in ms east of UTC);
`config.timeZone` is never read by the source.  With
`tod = (now + off) % day` the local time of day and
`tgt = (fetchHour*60 + fetchMinute) * 60000` the target time of day,
`now > targetTime` is exactly `tgt < tod`, in which case one local day
is added. -/
def computeWait (now off fetchHour fetchMinute : Nat) : Nat :=
  let tod := (now + off) % day
  let tgt := (fetchHour * 60 + fetchMinute) * 60000
  if tgt < tod then tgt + day - tod else tgt - tod

/-- Modelled from the spec: the claim's reference instant — "the next
occurrence of (fetchHour:fetchMinute) interpreted in the configured IANA
timezone — today's occurrence if it has not yet passed in that timezone,
otherwise tomorrow's", with an instant exactly at the target counting as
already passed (the claim requires a strictly positive wait).  The
configured timezone is modelled as the fixed offset `cfgOff` in ms east
of UTC (Europe/Madrid in winter is `cfgOff = 3600000`). -/
def specNextFetchInstant (now cfgOff fetchHour fetchMinute : Nat) : Nat :=
  let tod := (now + cfgOff) % day
  let tgt := (fetchHour * 60 + fetchMinute) * 60000
  if tod < tgt then now + (tgt - tod) else now + (tgt + day - tod)

/-- The local time of day is below `day`. -/
theorem tod_lt_day (now off : Nat) : (now + off) % day < day :=
  Nat.mod_lt _ (by decide)

/-- The target time of day is below `day` for an in-range hour/minute. -/
theorem tgt_lt_day {h m : Nat} (hh : h ≤ 23) (hm : m ≤ 59) :
    (h * 60 + m) * 60000 < day := by
  have hd : day = 86400000 := rfl
  have : (h * 60 + m) * 60000 ≤ (23 * 60 + 59) * 60000 := by
    apply Nat.mul_le_mul_right
    omega
  omega

/-- Characterisation of `computeWait`: it is below one day, the instant
`now + wait` is at the target time of day of the HOST-local timezone
(offset `off`), and the wait is zero exactly when `now` is already at the
target time of day. -/
theorem computeWait_characterisation (now off h m : Nat)
    (hh : h ≤ 23) (hm : m ≤ 59) :
    computeWait now off h m < day ∧
    (now + off + computeWait now off h m) % day = (h * 60 + m) * 60000 ∧
    (computeWait now off h m = 0 ↔
      (now + off) % day = (h * 60 + m) * 60000) := by
  have hday : 0 < day := by decide
  have htod := tod_lt_day now off
  have htgt := tgt_lt_day hh hm
  have hdm := Nat.div_add_mod (now + off) day
  unfold computeWait
  set tod := (now + off) % day with htodDef
  set tgt := (h * 60 + m) * 60000 with htgtDef
  by_cases hc : tgt < tod
  · rw [if_pos hc]
    refine ⟨by omega, ?_, by omega⟩
    have : now + off + (tgt + day - tod) =
        day * ((now + off) / day) + (tod + (tgt + day - tod)) := by omega
    rw [this, Nat.mul_add_mod]
    have : tod + (tgt + day - tod) = tgt + day := by omega
    rw [this, Nat.add_mod_right]
    exact Nat.mod_eq_of_lt htgt
  · rw [if_neg hc]
    refine ⟨by omega, ?_, by omega⟩
    have : now + off + (tgt - tod) =
        day * ((now + off) / day) + (tod + (tgt - tod)) := by omega
    rw [this, Nat.mul_add_mod]
    have : tod + (tgt - tod) = tgt := by omega
    rw [this]
    exact Nat.mod_eq_of_lt htgt

/-- Off the exact-equality case, the instant `now + computeWait` is the
spec's "next occurrence" — but computed for the offset actually used by
the code (the host's), whatever it is. -/
theorem computeWait_eq_specNext_of_ne (now off h m : Nat)
    (hne : (now + off) % day ≠ (h * 60 + m) * 60000) :
    now + computeWait now off h m = specNextFetchInstant now off h m := by
  unfold computeWait specNextFetchInstant
  set tod := (now + off) % day
  set tgt := (h * 60 + m) * 60000
  by_cases hc : tgt < tod
  · rw [if_pos hc, if_neg (by omega)]
  · rw [if_neg hc, if_pos (by omega)]

/-- C1 — counterexample.  Host timezone and configured timezone both
Europe/Madrid in winter (offset 3600000 ms); at `now = 32400000`
(09:00 UTC, i.e. exactly 10:00 local) with a 10:00 fetch time the wait
computed by `setupLeagueScheduler` is `0`: it is not strictly positive
and `now + wait` is today's (current) occurrence, not the next one the
claim requires. -/
theorem c1_counterexample :
    ¬ (0 < computeWait 32400000 3600000 10 0 ∧
       32400000 + computeWait 32400000 3600000 10 0 =
         specNextFetchInstant 32400000 3600000 10 0) := by
  decide

/-- C1 — amended.  The daily-trigger wait computed by
`setupLeagueScheduler` is non-negative (it is a `Nat`), below one day,
and lands on the configured `(fetchHour:fetchMinute)` time of day of the
HOST's local timezone (offset `off`): the `config.timeZone` field is
never read by the code, so the configured IANA timezone is honoured only
when the host zone coincides with it.  The wait is zero exactly when the
current instant is already at the target (no roll-over to tomorrow), and
otherwise `now + wait` is the next host-zone occurrence of the target. -/
theorem c1_wait_lands_in_host_zone (now off h m : Nat)
    (hh : h ≤ 23) (hm : m ≤ 59) :
    computeWait now off h m < day ∧
    (now + off + computeWait now off h m) % day = (h * 60 + m) * 60000 ∧
    (computeWait now off h m = 0 ↔
      (now + off) % day = (h * 60 + m) * 60000) ∧
    ((now + off) % day ≠ (h * 60 + m) * 60000 →
      now + computeWait now off h m = specNextFetchInstant now off h m) := by
  obtain ⟨h1, h2, h3⟩ := computeWait_characterisation now off h m hh hm
  exact ⟨h1, h2, h3, computeWait_eq_specNext_of_ne now off h m⟩

/-- C1 — witness for `c1_wait_lands_in_host_zone` at
`now = 0, off = 0, fetch time 10:00`. -/
theorem c1_witness :
    computeWait 0 0 10 0 < day ∧
    (0 + 0 + computeWait 0 0 10 0) % day = (10 * 60 + 0) * 60000 ∧
    (computeWait 0 0 10 0 = 0 ↔ (0 + 0) % day = (10 * 60 + 0) * 60000) ∧
    ((0 + 0) % day ≠ (10 * 60 + 0) * 60000 →
      0 + computeWait 0 0 10 0 = specNextFetchInstant 0 0 10 0) :=
  c1_wait_lands_in_host_zone 0 0 10 0 (by decide) (by decide)

/-- C5 — counterexample.  At `now = 36000000` (exactly 10:00 in a
zero-offset host zone) with a 10:00 fetch time, the current instant
equals today's target exactly — the claim's precondition holds — yet
the wait computed by `setupLeagueScheduler` is `0`: it is NOT strictly
positive, and it is NOT one day either, so `now + wait` is today's
(current) instant and not tomorrow's occurrence.  The code's strict
comparison `now > targetTime` does not treat exact equality as "already
passed". -/
theorem c5_counterexample :
    (36000000 + 0) % day = (10 * 60 + 0) * 60000 ∧
    computeWait 36000000 0 10 0 = 0 ∧
    ¬ 0 < computeWait 36000000 0 10 0 ∧
    computeWait 36000000 0 10 0 ≠ day := by
  decide

/-- C5 — amended.  In the host's local zone (the zone the code actually
uses): when the current instant equals today's target exactly, the
computed wait is zero — the timer fires immediately instead of rolling
over to tomorrow; when the instant is strictly before today's target,
the wait is the strictly positive time remaining until today's target;
and only when the instant is strictly past today's target does the wait
roll over to tomorrow's target, again strictly positive. -/
theorem c5_exact_equality_gives_zero_wait (now off h m : Nat) :
    ((now + off) % day = (h * 60 + m) * 60000 →
      computeWait now off h m = 0) ∧
    ((now + off) % day < (h * 60 + m) * 60000 →
      computeWait now off h m =
        (h * 60 + m) * 60000 - (now + off) % day ∧
      0 < computeWait now off h m) ∧
    ((h * 60 + m) * 60000 < (now + off) % day →
      computeWait now off h m =
        (h * 60 + m) * 60000 + day - (now + off) % day ∧
      0 < computeWait now off h m) := by
  have hd : day = 86400000 := rfl
  have htod := tod_lt_day now off
  unfold computeWait
  set tod := (now + off) % day
  set tgt := (h * 60 + m) * 60000
  refine ⟨?_, ?_, ?_⟩
  · intro he
    rw [if_neg (by omega)]
    omega
  · intro hlt
    rw [if_neg (by omega)]
    omega
  · intro hlt
    rw [if_pos hlt]
    omega

/-- C5 — witness for `c5_exact_equality_gives_zero_wait` at
`now = 36000000, off = 0, fetch time 10:00` (an instant exactly at the
target, where the first implication's antecedent holds). -/
theorem c5_witness :
    ((36000000 + 0) % day = (10 * 60 + 0) * 60000 →
      computeWait 36000000 0 10 0 = 0) ∧
    ((36000000 + 0) % day < (10 * 60 + 0) * 60000 →
      computeWait 36000000 0 10 0 =
        (10 * 60 + 0) * 60000 - (36000000 + 0) % day ∧
      0 < computeWait 36000000 0 10 0) ∧
    ((10 * 60 + 0) * 60000 < (36000000 + 0) % day →
      computeWait 36000000 0 10 0 =
        (10 * 60 + 0) * 60000 + day - (36000000 + 0) % day ∧
      0 < computeWait 36000000 0 10 0) :=
  c5_exact_equality_gives_zero_wait 36000000 0 10 0

/-! ## Events and the publish-timer computation (`scheduleLeagueTweet`) -/

/-- A game record as returned by the GraphQL fetch (azuro.ts `Game`):
`startsAt` is a Unix timestamp in seconds (a numeric string in the
source, always consumed through `Number(...)`, modelled as `Nat`);
`participants` is the list of participant names; the slug fields are
flattened from `sport.slug`, `league.slug` and `league.country.slug`. -/
structure Game where
  startsAt : Nat
  participants : List String
  sportSlug : String
  leagueSlug : String
  countrySlug : String
deriving DecidableEq, Repr

/-- The function `AzuroScheduler.scheduleLeagueTweet` (scheduler.ts lines 492–516):

```
const firstGame = tweetData.games?.[0];
if (!firstGame) { return; }
const postTime = Number(firstGame.startsAt) * 1000 - (60 * 60 * 1000);
const timeUntilPost = postTime - Date.now();
if (timeUntilPost > 0) { setTimeout(() => this.postLeagueTweet(tweetData), timeUntilPost); }
else { logger.warn(...); }
```

Returns the absolute instant (ms) at which the one-shot publish timer is
armed to fire, or `none` when no timer is armed.  Arithmetic is over
`Int` as in JavaScript numbers. -/
def scheduleLeagueTweet (games : List Game) (now : Int) : Option Int :=
  match games with
  | [] => none
  | firstGame :: _ =>
    let postTime : Int := (firstGame.startsAt : Int) * 1000 - 60 * 60 * 1000
    let timeUntilPost := postTime - now
    if 0 < timeUntilPost then some postTime else none

/-- C6 — confirmed.  For a batch whose earliest event starts at instant
`T = startsAt * 1000` ms (the head of `games`, which is the minimum of
the batch), with the fixed lead time `L = 3600000` ms: if `T - L` is
strictly in the future, exactly one one-shot publish timer is armed to
fire at exactly `T - L`; if `T - L` is not in the future, no publish
timer is armed (and hence no publish occurs that cycle). -/
theorem c6_publish_timer_exact (firstGame : Game) (rest : List Game)
    (now : Int)
    (hmin : ∀ g ∈ firstGame :: rest, firstGame.startsAt ≤ g.startsAt) :
    (now < (firstGame.startsAt : Int) * 1000 - 3600000 →
      scheduleLeagueTweet (firstGame :: rest) now =
        some ((firstGame.startsAt : Int) * 1000 - 3600000)) ∧
    ((firstGame.startsAt : Int) * 1000 - 3600000 ≤ now →
      scheduleLeagueTweet (firstGame :: rest) now = none) := by
  have hred : scheduleLeagueTweet (firstGame :: rest) now =
      if 0 < (firstGame.startsAt : Int) * 1000 - 60 * 60 * 1000 - now then
        some ((firstGame.startsAt : Int) * 1000 - 60 * 60 * 1000)
      else none := rfl
  rw [hred]
  constructor
  · intro hfut
    rw [if_pos (by omega)]
    norm_num
  · intro hpast
    rw [if_neg (by omega)]

/-- C6 — witness for `c6_publish_timer_exact`: a single game starting at
Unix second 7200 (instant 7200000 ms), scheduled at `now = 0`: the
publish timer is armed for 3600000 ms (one hour before the game). -/
theorem c6_witness :
    (0 < ((⟨7200, ["A", "B"], "s", "l", "c"⟩ : Game).startsAt : Int)
        * 1000 - 3600000 →
      scheduleLeagueTweet [⟨7200, ["A", "B"], "s", "l", "c"⟩] 0 =
        some (((⟨7200, ["A", "B"], "s", "l", "c"⟩ : Game).startsAt : Int)
          * 1000 - 3600000)) ∧
    (((⟨7200, ["A", "B"], "s", "l", "c"⟩ : Game).startsAt : Int)
        * 1000 - 3600000 ≤ 0 →
      scheduleLeagueTweet [⟨7200, ["A", "B"], "s", "l", "c"⟩] 0 = none) :=
  c6_publish_timer_exact ⟨7200, ["A", "B"], "s", "l", "c"⟩ [] 0
    (by intro g hg; simp at hg; simp [hg])

/-! ## The engine's timer state, per league

`AzuroScheduler` keeps `leagueSchedules : Map<string, NodeJS.Timeout>`
— at most one registered (engine-owned, cancellable) timer handle per
league.  The Node.js runtime additionally keeps every armed timer alive
until it fires or is cleared, including timers the engine created but
never stored (the publish `setTimeout` of `scheduleLeagueTweet`).  We
model one league's slice of this state: the registered handle, the list
of live armed timers, a fresh-id counter, and the number of in-flight
`fetchAndScheduleLeague` calls (each fire of a daily timer starts one;
its resolution is a separate, later event, since the fetch is `async`).
-/

/-- The three kinds of timers the scheduler creates for a league:
the initial one-shot daily `setTimeout` (scheduler.ts line 376), the
recurring 24-hour `setInterval` (line 379), and the one-shot publish
`setTimeout` (line 510). -/
inductive TKind where
  | oneshotDaily
  | interval24h
  | publishShot
deriving DecidableEq, Repr

/-- A live armed timer: its Node handle id, its kind, and the delay (for
`interval24h`, the repeat period) in milliseconds it was created with. -/
structure Timer where
  id : Nat
  kind : TKind
  delayMs : Nat
deriving DecidableEq, Repr

/-- One league's slice of the engine state. -/
structure EngState where
  /-- The handle stored in `leagueSchedules` for this league, if any. -/
  registered : Option Nat
  /-- All live armed timers for this league, registered or not. -/
  armed : List Timer
  /-- Fresh-handle counter. -/
  nextId : Nat
  /-- Number of in-flight `fetchAndScheduleLeague` calls. -/
  pendingFetches : Nat
deriving DecidableEq, Repr

/-- The state right after `setupLeagueScheduler` ran for a league with
computed wait `w`: one registered one-shot daily timer
(scheduler.ts lines 376–384). -/
def startState (w : Nat) : EngState :=
  { registered := some 0
    armed := [⟨0, .oneshotDaily, w⟩]
    nextId := 1
    pendingFetches := 0 }

/-- The full `setupLeagueScheduler`: computes the wait from the host
clock and arms/registers the initial daily timer. -/
def setupLeagueScheduler (now off fetchHour fetchMinute : Nat) : EngState :=
  startState (computeWait now off fetchHour fetchMinute)

/-- Events that can happen to a league's slice of the engine after
`start()`. -/
inductive Ev where
  /-- The initial one-shot daily `setTimeout` with handle `tid` fires.
  Its callback (scheduler.ts lines 376–382) starts
  `fetchAndScheduleLeague` and then creates and registers the 24-hour
  `setInterval`. -/
  | fireDaily (tid : Nat)
  /-- The recurring daily `setInterval` with handle `tid` fires (it
  stays armed) and starts `fetchAndScheduleLeague`. -/
  | fireInterval (tid : Nat)
  /-- An in-flight `fetchAndScheduleLeague` resolves with batch `games`
  at instant `now`; `scheduleLeagueTweet` (line 492) then arms an
  unregistered publish `setTimeout` iff the publish instant is strictly
  in the future. -/
  | fetchDone (games : List Game) (now : Int)
  /-- The one-shot publish `setTimeout` with handle `tid` fires. -/
  | firePublish (tid : Nat)
  /-- The `stop()` call (scheduler.ts lines 521–528): clear the timers stored in
  `leagueSchedules` and empty the map. -/
  | stop

/-- Whether the event is `stop` (used to scope "between `start()` and
`stop()`"). -/
def Ev.isStop : Ev → Bool
  | .stop => true
  | _ => false

/-- There is a live armed timer with handle `tid` and kind `k`. -/
def hasTimer (s : EngState) (tid : Nat) (k : TKind) : Bool :=
  s.armed.any fun t => t.id == tid && t.kind == k

/-- Which events can actually occur in a state: a timer only fires while
armed, a fetch only resolves while in flight; `stop()` can always be
called. -/
def enabled (s : EngState) : Ev → Bool
  | .fireDaily tid => hasTimer s tid .oneshotDaily
  | .fireInterval tid => hasTimer s tid .interval24h
  | .fetchDone _ _ => decide (0 < s.pendingFetches)
  | .firePublish tid => hasTimer s tid .publishShot
  | .stop => true

/-- Effect of each event on a league's slice of the engine state,
translated from scheduler.ts:
* `fireDaily`: the one-shot is spent; the callback starts a fetch,
  creates the 24-hour `setInterval` and overwrites the registry entry
  with it (`this.leagueSchedules.set(league, setInterval(...))`).
* `fireInterval`: the interval stays armed; a fetch starts.
* `fetchDone`: `scheduleLeagueTweet` runs; when it yields a publish
  instant, a publish `setTimeout` is created but NOT stored in
  `leagueSchedules`.
* `firePublish`: the one-shot publish timer is spent.
* `stop`: `clearTimeout` on every handle in `leagueSchedules`, then
  `clear()` — only the registered handle is cancelled. -/
def applyEv (s : EngState) : Ev → EngState
  | .fireDaily tid =>
    { registered := some s.nextId
      armed := (s.armed.filter fun t => t.id != tid)
        ++ [⟨s.nextId, .interval24h, day⟩]
      nextId := s.nextId + 1
      pendingFetches := s.pendingFetches + 1 }
  | .fireInterval _ =>
    { s with pendingFetches := s.pendingFetches + 1 }
  | .fetchDone games now =>
    match scheduleLeagueTweet games now with
    | none => { s with pendingFetches := s.pendingFetches - 1 }
    | some postTime =>
      { s with
        armed := s.armed ++ [⟨s.nextId, .publishShot, (postTime - now).toNat⟩]
        nextId := s.nextId + 1
        pendingFetches := s.pendingFetches - 1 }
  | .firePublish tid =>
    { s with armed := s.armed.filter fun t => t.id != tid }
  | .stop =>
    match s.registered with
    | none => s
    | some r =>
      { s with
        registered := none
        armed := s.armed.filter fun t => t.id != r }

/-- States reachable from `s0` without calling `stop()` — the window
"between the completion of `start()` and the call to `stop()`". -/
inductive ReachRun (s0 : EngState) : EngState → Prop where
  | refl : ReachRun s0 s0
  | step {s : EngState} (e : Ev) : ReachRun s0 s → enabled s e = true →
      e.isStop = false → ReachRun s0 (applyEv s e)

/-- A timer is a "daily" one (engine-owned recurrence machinery) iff it
is not a publish one-shot. -/
def isDailyKind (t : Timer) : Bool := t.kind != TKind.publishShot

/-- Engine-state invariant between `start()` and `stop()`: the registry
holds exactly one handle, the armed non-publish (daily) timers are
exactly one — the registered one —, armed handles are distinct and below
the fresh counter, and every recurring interval has the fixed 24-hour
period. -/
def Inv (s : EngState) : Prop :=
  (∃ r t0, s.registered = some r ∧
    s.armed.filter isDailyKind = [t0] ∧ t0.id = r) ∧
  (s.armed.map Timer.id).Nodup ∧
  (∀ t ∈ s.armed, t.id < s.nextId) ∧
  (∀ t ∈ s.armed, t.kind = TKind.interval24h → t.delayMs = day)

/-- Two filters of the same list commute. -/
theorem filter_swap {α : Type} (p q : α → Bool) (l : List α) :
    (l.filter q).filter p = (l.filter p).filter q := by
  rw [List.filter_filter, List.filter_filter]
  exact List.filter_congr fun a _ => Bool.and_comm (p a) (q a)

/-- Unfolding of `hasTimer`. -/
theorem hasTimer_iff {s : EngState} {tid : Nat} {k : TKind} :
    hasTimer s tid k = true ↔ ∃ t ∈ s.armed, t.id = tid ∧ t.kind = k := by
  simp [hasTimer, List.any_eq_true, Bool.and_eq_true, beq_iff_eq]

/-- The invariant holds right after `setupLeagueScheduler`. -/
theorem inv_startState (w : Nat) : Inv (startState w) := by
  refine ⟨⟨0, ⟨0, .oneshotDaily, w⟩, rfl, rfl, rfl⟩, ?_, ?_, ?_⟩
  · simp [startState]
  · intro t ht
    simp only [startState, List.mem_singleton] at ht
    subst ht
    show 0 < 1
    exact Nat.one_pos
  · intro t ht
    simp only [startState, List.mem_singleton] at ht
    subst ht
    intro hk
    exact TKind.noConfusion hk

/-- The invariant is preserved by every enabled non-`stop` event. -/
theorem inv_step {s : EngState} (e : Ev) (hinv : Inv s)
    (he : enabled s e = true) (hns : e.isStop = false) :
    Inv (applyEv s e) := by
  obtain ⟨⟨r, t0, hreg, hfil, hid⟩, hnd, hfresh, hivl⟩ := hinv
  cases e with
  | fireDaily tid =>
    -- The fired one-shot must be the unique daily timer, so `tid = r`.
    obtain ⟨t, htmem, htid, htk⟩ := hasTimer_iff.mp he
    have htd : t ∈ s.armed.filter isDailyKind := by
      rw [List.mem_filter]
      exact ⟨htmem, by simp [isDailyKind, htk]⟩
    rw [hfil] at htd
    have ht0 : t = t0 := by simpa using htd
    have htid0 : tid = r := by rw [← htid, ht0, hid]
    constructor
    · refine ⟨s.nextId, ⟨s.nextId, .interval24h, day⟩, rfl, ?_, rfl⟩
      show ((s.armed.filter fun t : Timer => t.id != tid)
          ++ [(⟨s.nextId, .interval24h, day⟩ : Timer)]).filter isDailyKind = _
      rw [List.filter_append,
        filter_swap isDailyKind (fun t => t.id != tid), hfil]
      have : ([t0].filter fun t => t.id != tid) = [] := by
        simp [hid, htid0]
      rw [this]
      rfl
    refine ⟨?_, ?_, ?_⟩
    · show (((s.armed.filter fun t : Timer => t.id != tid)
          ++ [(⟨s.nextId, .interval24h, day⟩ : Timer)]).map Timer.id).Nodup
      rw [List.map_append, List.nodup_append, List.map_singleton,
        List.disjoint_singleton]
      refine ⟨((List.filter_sublist s.armed).map Timer.id).nodup hnd,
        List.nodup_singleton _, ?_⟩
      intro hmem
      simp only [List.mem_map, List.mem_filter] at hmem
      obtain ⟨t', ⟨ht'm, _⟩, ht'id⟩ := hmem
      exact Nat.lt_irrefl _ (ht'id ▸ hfresh t' ht'm)
    · intro t' ht'
      have ht'' : t' ∈ (s.armed.filter fun t : Timer => t.id != tid)
          ++ [(⟨s.nextId, .interval24h, day⟩ : Timer)] := ht'
      show t'.id < s.nextId + 1
      rcases List.mem_append.mp ht'' with hm | hm
      · exact Nat.lt_succ_of_lt (hfresh t' (List.mem_filter.mp hm).1)
      · simp only [List.mem_singleton] at hm
        subst hm
        exact Nat.lt_succ_self _
    · intro t' ht'
      have ht'' : t' ∈ (s.armed.filter fun t : Timer => t.id != tid)
          ++ [(⟨s.nextId, .interval24h, day⟩ : Timer)] := ht'
      rcases List.mem_append.mp ht'' with hm | hm
      · exact hivl t' (List.mem_filter.mp hm).1
      · simp only [List.mem_singleton] at hm
        subst hm
        intro hk
        rfl
  | fireInterval tid =>
    exact ⟨⟨r, t0, hreg, hfil, hid⟩, hnd, hfresh, hivl⟩
  | fetchDone games now =>
    simp only [applyEv]
    cases hsch : scheduleLeagueTweet games now with
    | none => exact ⟨⟨r, t0, hreg, hfil, hid⟩, hnd, hfresh, hivl⟩
    | some postTime =>
      refine ⟨⟨r, t0, hreg, ?_, hid⟩, ?_, ?_, ?_⟩
      · rw [List.filter_append, hfil]
        simp [isDailyKind]
      · rw [List.map_append, List.nodup_append, List.map_singleton,
          List.disjoint_singleton]
        refine ⟨hnd, List.nodup_singleton _, ?_⟩
        intro hmem
        simp only [List.mem_map] at hmem
        obtain ⟨t', ht'm, ht'id⟩ := hmem
        exact Nat.lt_irrefl _ (ht'id ▸ hfresh t' ht'm)
      · intro t' ht'
        show t'.id < s.nextId + 1
        rcases List.mem_append.mp ht' with hm | hm
        · exact Nat.lt_succ_of_lt (hfresh t' hm)
        · simp only [List.mem_singleton] at hm
          subst hm
          exact Nat.lt_succ_self _
      · intro t' ht'
        rcases List.mem_append.mp ht' with hm | hm
        · exact hivl t' hm
        · simp only [List.mem_singleton] at hm
          subst hm
          intro hk
          exact TKind.noConfusion hk
  | firePublish tid =>
    -- The fired publish timer is distinct from the daily one.
    obtain ⟨t, htmem, htid, htk⟩ := hasTimer_iff.mp he
    have ht0mem : t0 ∈ s.armed ∧ isDailyKind t0 = true := by
      have : t0 ∈ s.armed.filter isDailyKind := by
        rw [hfil]; simp
      exact List.mem_filter.mp this
    have hne : t0.id ≠ tid := by
      intro hcontra
      have := List.inj_on_of_nodup_map hnd ht0mem.1 htmem
        (by rw [hcontra, htid])
      rw [this] at ht0mem
      simp [isDailyKind, htk] at ht0mem
    refine ⟨⟨r, t0, hreg, ?_, hid⟩, ?_, ?_, ?_⟩
    · show ((s.armed.filter fun t => t.id != tid).filter isDailyKind) = _
      rw [filter_swap isDailyKind (fun t => t.id != tid), hfil]
      simp [hne]
    · exact ((List.filter_sublist s.armed).map Timer.id).nodup hnd
    · intro t' ht'
      exact hfresh t' (List.mem_filter.mp ht').1
    · intro t' ht'
      exact hivl t' (List.mem_filter.mp ht').1
  | stop => cases hns

/-- Every state reachable between `start()` and `stop()` satisfies the
invariant. -/
theorem inv_reach {w : Nat} {s : EngState}
    (h : ReachRun (startState w) s) : Inv s := by
  induction h with
  | refl => exact inv_startState w
  | step e _ he hns ih => exact inv_step e ih he hns

/-- C2 — counterexample.  A reachable state, between `start()` and
`stop()`, with TWO live armed engine-created timers for the league: the
initial daily timeout fires (arming the registered 24-hour interval and
starting a fetch), then the fetch resolves with a game at Unix second
7200 whose publish instant is in the future, arming the unregistered
publish timeout.  The claim's "exactly one … never two" is false at this
state. -/
theorem c2_counterexample :
    ReachRun (startState 100)
      (applyEv (applyEv (startState 100) (Ev.fireDaily 0))
        (Ev.fetchDone [⟨7200, [], "g", "g", "g"⟩] 0)) ∧
    (applyEv (applyEv (startState 100) (Ev.fireDaily 0))
      (Ev.fetchDone [⟨7200, [], "g", "g", "g"⟩] 0)).armed.length = 2 := by
  refine ⟨?_, by decide⟩
  exact ReachRun.step (Ev.fetchDone [⟨7200, [], "g", "g", "g"⟩] 0)
    (ReachRun.step (Ev.fireDaily 0) ReachRun.refl (by decide) (by decide))
    (by decide) (by decide)

/-- C2 — amended.  Between `start()` and `stop()` every league always
has at least one live armed timer, and exactly one live armed
NON-publish timer — the daily one, whose handle is the one registered in
`leagueSchedules`.  During a pending publish a second live timer (the
unregistered publish one-shot of `scheduleLeagueTweet`) coexists with
it, so the total count can be two. -/
theorem c2_one_registered_daily_timer {w : Nat} {s : EngState}
    (h : ReachRun (startState w) s) :
    ∃ r, s.registered = some r ∧
      (s.armed.filter isDailyKind).map Timer.id = [r] ∧
      1 ≤ s.armed.length := by
  obtain ⟨⟨r, t0, hreg, hfil, hid⟩, _, _, _⟩ := inv_reach h
  refine ⟨r, hreg, ?_, ?_⟩
  · rw [hfil, List.map_singleton, hid]
  · have hlen : (s.armed.filter isDailyKind).length = 1 := by
      rw [hfil]
      rfl
    have hsub := (List.filter_sublist (p := isDailyKind) s.armed).length_le
    omega

/-- C2 — witness for `c2_one_registered_daily_timer` at the state right
after `start()` with initial wait 5. -/
theorem c2_witness :
    ∃ r, (startState 5).registered = some r ∧
      ((startState 5).armed.filter isDailyKind).map Timer.id = [r] ∧
      1 ≤ (startState 5).armed.length :=
  c2_one_registered_daily_timer ReachRun.refl

/-- C3 — counterexample.  From a reachable state in which a publish
timer is pending, `stop()` cancels only the handle stored in
`leagueSchedules` (the daily interval): the unregistered publish timeout
survives, so after `stop()` one timer remains armed, not zero. -/
theorem c3_counterexample :
    ReachRun (startState 200)
      (applyEv (applyEv (startState 200) (Ev.fireDaily 0))
        (Ev.fetchDone [⟨9000, [], "h", "h", "h"⟩] 0)) ∧
    (applyEv
      (applyEv (applyEv (startState 200) (Ev.fireDaily 0))
        (Ev.fetchDone [⟨9000, [], "h", "h", "h"⟩] 0))
      Ev.stop).armed =
      [⟨2, TKind.publishShot, 5400000⟩] := by
  refine ⟨?_, by decide⟩
  exact ReachRun.step (Ev.fetchDone [⟨9000, [], "h", "h", "h"⟩] 0)
    (ReachRun.step (Ev.fireDaily 0) ReachRun.refl (by decide) (by decide))
    (by decide) (by decide)

/-- C3 — amended.  `stop()` cancels every timer registered in
`leagueSchedules` (in every per-league state that is the league's single
daily timer) and clears the registry, and calling `stop()` again is a
no-op; but pending one-shot publish timers are NOT cancelled — every
timer still armed after `stop()` is a publish one-shot. -/
theorem c3_stop_cancels_registered_only {w : Nat} {s : EngState}
    (h : ReachRun (startState w) s) :
    (applyEv s Ev.stop).registered = none ∧
    (∀ t ∈ (applyEv s Ev.stop).armed, t.kind = TKind.publishShot) ∧
    applyEv (applyEv s Ev.stop) Ev.stop = applyEv s Ev.stop := by
  obtain ⟨⟨r, t0, hreg, hfil, hid⟩, _, _, _⟩ := inv_reach h
  have happ : applyEv s Ev.stop =
      { s with registered := none
               armed := s.armed.filter fun t => t.id != r } := by
    simp only [applyEv, hreg]
  refine ⟨by rw [happ], ?_, ?_⟩
  · intro t ht
    rw [happ] at ht
    have htm := List.mem_filter.mp ht
    by_contra hk
    have htd : t ∈ s.armed.filter isDailyKind :=
      List.mem_filter.mpr ⟨htm.1, by simp [isDailyKind, bne_iff_ne]; exact hk⟩
    rw [hfil] at htd
    have ht0 : t = t0 := by simpa using htd
    have : (t.id != r) = true := htm.2
    rw [ht0, hid] at this
    simp at this
  · rw [happ]
    rfl

/-- C3 — witness for `c3_stop_cancels_registered_only` at the state
right after `start()` with initial wait 7. -/
theorem c3_witness :
    (applyEv (startState 7) Ev.stop).registered = none ∧
    (∀ t ∈ (applyEv (startState 7) Ev.stop).armed,
      t.kind = TKind.publishShot) ∧
    applyEv (applyEv (startState 7) Ev.stop) Ev.stop =
      applyEv (startState 7) Ev.stop :=
  c3_stop_cancels_registered_only ReachRun.refl

/-- C4 — counterexample.  After the initial daily timeout fires, the
timer realising the daily recurrence is a `setInterval` with the FIXED
period `24 * 60 * 60 * 1000` ms, and a later cycle's completion
(`fireInterval`) arms no new daily timer at all — while the LeagueClock
computation (`computeWait`) at, e.g., completion instant 0 in a
Madrid-offset host zone yields 32400000 ms ≠ 86400000 ms.  This refutes
"daily recurrence is never realized by a fixed 24-hour repeating
interval". -/
theorem c4_counterexample :
    ReachRun (startState 300) (applyEv (startState 300) (Ev.fireDaily 0)) ∧
    (applyEv (startState 300) (Ev.fireDaily 0)).armed =
      [⟨1, TKind.interval24h, 86400000⟩] ∧
    (applyEv (applyEv (startState 300) (Ev.fireDaily 0))
      (Ev.fireInterval 1)).armed =
      (applyEv (startState 300) (Ev.fireDaily 0)).armed ∧
    computeWait 0 3600000 10 0 ≠ 86400000 := by
  refine ⟨ReachRun.step (Ev.fireDaily 0) ReachRun.refl (by decide) (by decide),
    by decide, rfl, by decide⟩

/-- C4 — amended.  Only the initial daily timer's duration comes from
the LeagueClock computation (`setupLeagueScheduler` arms it with
`computeWait`); once it has fired, recurrence is realised by a single
fixed 24-hour `setInterval`: whenever the recurring daily timer fires,
the armed-timer set is unchanged (nothing is recomputed or re-armed) and
the firing timer is an interval with period exactly `day`. -/
theorem c4_recurrence_is_fixed_interval {w : Nat} {s : EngState}
    {tid : Nat} (h : ReachRun (startState w) s)
    (he : enabled s (Ev.fireInterval tid) = true) :
    (applyEv s (Ev.fireInterval tid)).armed = s.armed ∧
    (∀ now off fh fm, setupLeagueScheduler now off fh fm =
      startState (computeWait now off fh fm)) ∧
    ∃ t ∈ s.armed, t.id = tid ∧ t.kind = TKind.interval24h ∧
      t.delayMs = day := by
  obtain ⟨_, _, _, hivl⟩ := inv_reach h
  obtain ⟨t, htm, htid, htk⟩ := hasTimer_iff.mp he
  exact ⟨rfl, fun _ _ _ _ => rfl, t, htm, htid, htk, hivl t htm htk⟩

/-- C4 — witness for `c4_recurrence_is_fixed_interval` at the state
after the initial daily timeout (handle 0) has fired, firing the
recurring interval (handle 1). -/
theorem c4_witness :
    (applyEv (applyEv (startState 42) (Ev.fireDaily 0))
      (Ev.fireInterval 1)).armed =
      (applyEv (startState 42) (Ev.fireDaily 0)).armed ∧
    (∀ now off fh fm, setupLeagueScheduler now off fh fm =
      startState (computeWait now off fh fm)) ∧
    ∃ t ∈ (applyEv (startState 42) (Ev.fireDaily 0)).armed,
      t.id = 1 ∧ t.kind = TKind.interval24h ∧ t.delayMs = day :=
  c4_recurrence_is_fixed_interval
    (ReachRun.step (Ev.fireDaily 0) ReachRun.refl (by decide) (by decide))
    (by decide)

/-! ## The publish step (`postLeagueTweet`) -/

/-- The externally visible side-effecting actions of the publish step. -/
inductive PostAction where
  /-- The main announcement post (`sendTweet`/`sendNoteTweet`). -/
  | mainPost
  /-- The reply with betting links (`sendTweet(linkTweet, firstTweetId)`). -/
  | replyPost
  /-- Deleting/undoing the main post — a capability of the client the
  code never invokes. -/
  | retractMain
deriving DecidableEq, Repr

/-- How the reply step can end (scheduler.ts lines 469–483): the
`sendTweet` call rejects (`threw`), it resolves but the response body
has no `tweet_results.result` (`badShape`, logged as an error without
throwing), or it succeeds. -/
inductive ReplyOutcome where
  | threw
  | badShape
  | posted (id : String)
deriving DecidableEq, Repr

/-- The `try`-block of `AzuroScheduler.postLeagueTweet` (scheduler.ts
lines 421–483), as the list of publish actions performed and the
exception it raises, if any.  `mainRes` is the outcome of the main post
(`Except.error` covers both a rejected send and a malformed response
body, either of which throws before `firstTweetId` is obtained);
`replyRes` is the outcome of the reply step, which is only reached when
the main post produced an id.  A main-post failure throws out of the
`try` block before the reply `sendTweet` call; a reply `badShape` is
logged without throwing; the code contains no retraction or retry of
the main post. -/
def postLeagueTweetBody (mainRes : Except Unit String)
    (replyRes : ReplyOutcome) : List PostAction × Option Unit :=
  match mainRes with
  | .error e => ([.mainPost], some e)
  | .ok _ =>
    match replyRes with
    | .threw => ([.mainPost, .replyPost], some ())
    | .badShape => ([.mainPost, .replyPost], none)
    | .posted _ => ([.mainPost, .replyPost], none)

/-- The function `AzuroScheduler.postLeagueTweet`: the whole body runs inside
`try { ... } catch (error) { logger.error(...) }`, so whatever the body
raises is swallowed; the second component — "an exception escapes to
the caller" — is therefore `false`. -/
def postLeagueTweet (mainRes : Except Unit String)
    (replyRes : ReplyOutcome) : List PostAction × Bool :=
  ((postLeagueTweetBody mainRes replyRes).1, false)

/-- C7 — confirmed.  In every execution of the publish step: no
exception escapes `postLeagueTweet`; the main post is attempted exactly
once (never retried); the main post is never retracted; and if the main
post fails, the reply call is not attempted at all (the action list is
just the main attempt).  In particular, when the main post succeeds and
the reply fails (by throwing or by a malformed response), nothing
propagates to the caller and the main post stands. -/
theorem c7_publish_failure_containment (mainRes : Except Unit String)
    (replyRes : ReplyOutcome) :
    (postLeagueTweet mainRes replyRes).2 = false ∧
    (postLeagueTweet mainRes replyRes).1.count PostAction.mainPost = 1 ∧
    PostAction.retractMain ∉ (postLeagueTweet mainRes replyRes).1 ∧
    (∀ e, mainRes = Except.error e →
      (postLeagueTweet mainRes replyRes).1 = [PostAction.mainPost]) := by
  cases mainRes with
  | error e =>
    exact ⟨rfl, rfl, by simp [postLeagueTweet, postLeagueTweetBody],
      fun e' he' => rfl⟩
  | ok v =>
    cases replyRes with
    | threw =>
      exact ⟨rfl, rfl, by simp [postLeagueTweet, postLeagueTweetBody],
        fun e' he' => by cases he'⟩
    | badShape =>
      exact ⟨rfl, rfl, by simp [postLeagueTweet, postLeagueTweetBody],
        fun e' he' => by cases he'⟩
    | posted id =>
      exact ⟨rfl, rfl, by simp [postLeagueTweet, postLeagueTweetBody],
        fun e' he' => by cases he'⟩

/-- C7 — witness for `c7_publish_failure_containment` at a failing main
post. -/
theorem c7_witness :
    (postLeagueTweet (Except.error ()) ReplyOutcome.threw).2 = false ∧
    (postLeagueTweet (Except.error ())
      ReplyOutcome.threw).1.count PostAction.mainPost = 1 ∧
    PostAction.retractMain ∉
      (postLeagueTweet (Except.error ()) ReplyOutcome.threw).1 ∧
    (∀ e, (Except.error () : Except Unit String) = Except.error e →
      (postLeagueTweet (Except.error ()) ReplyOutcome.threw).1 =
        [PostAction.mainPost]) :=
  c7_publish_failure_containment (Except.error ()) ReplyOutcome.threw

/-! ## The Twitter client (`twitter.ts`) and dry-run mode -/

/-- Actions `TwitterClient` can perform against the real scraper. -/
inductive TwAction where
  | login
  | scraperSendTweet (content : String) (replyTo : Option String)
  | scraperSendNoteTweet (content : String) (replyTo : Option String)
deriving DecidableEq, Repr

/-- The fields of a tweet-send result the scheduler consumes. -/
structure TweetResult where
  ok : Bool
  rest_id : String
  full_text : String
  in_reply_to : Option String
deriving DecidableEq, Repr

/-- The synthetic success result built by `TwitterClient.sendTweet` in
dry-run mode (twitter.ts lines 78–100): note the
`rest_id: dry-run-${Date.now()}` — the current timestamp `nowMs` is
baked into the identifier. -/
def dryRunTweetResult (content : String) (replyTo : Option String)
    (nowMs : Nat) : TweetResult :=
  { ok := true
    rest_id := "dry-run-" ++ toString nowMs
    full_text := content
    in_reply_to := replyTo }

/-- The synthetic success result of `TwitterClient.sendNoteTweet` in
dry-run mode (twitter.ts lines 126–148):
`rest_id: dry-run-notetweet-${Date.now()}`. -/
def dryRunNoteTweetResult (content : String) (replyTo : Option String)
    (nowMs : Nat) : TweetResult :=
  { ok := true
    rest_id := "dry-run-notetweet-" ++ toString nowMs
    full_text := content
    in_reply_to := replyTo }

/-- The method `TwitterClient.sendTweet` (twitter.ts lines 77–120): in dry-run
mode, log and return the synthetic result without touching the scraper;
otherwise log in and send through the scraper (whose outcome is the
`liveResult` oracle).  Returns the scraper actions performed and the
result. -/
def sendTweet (isDryRun : Bool) (content : String) (replyTo : Option String)
    (nowMs : Nat) (liveResult : TweetResult) : List TwAction × TweetResult :=
  if isDryRun then ([], dryRunTweetResult content replyTo nowMs)
  else ([.login, .scraperSendTweet content replyTo], liveResult)

/-- The method `TwitterClient.sendNoteTweet` (twitter.ts lines 125–169), same shape
as `sendTweet`. -/
def sendNoteTweet (isDryRun : Bool) (content : String)
    (replyTo : Option String) (nowMs : Nat) (liveResult : TweetResult) :
    List TwAction × TweetResult :=
  if isDryRun then ([], dryRunNoteTweetResult content replyTo nowMs)
  else ([.login, .scraperSendNoteTweet content replyTo], liveResult)

/-- C9 — counterexample.  Two dry-run invocations of `sendTweet` with
the same inputs do NOT produce the same result: the synthetic `rest_id`
embeds `Date.now()`, so invocations at instants 1000 and 2000 differ.
The result is not deterministic in the call's inputs. -/
theorem c9_counterexample :
    (sendTweet true "hello" none 1000 ⟨true, "x", "x", none⟩).2 ≠
    (sendTweet true "hello" none 2000 ⟨true, "x", "x", none⟩).2 := by
  decide

/-- C9 — amended.  In dry-run mode, `sendTweet` and `sendNoteTweet`
perform no scraper action (no login, no real send) and return a
synthetic success result that is deterministic in the inputs AND the
invocation instant — but not across invocations, since `rest_id` embeds
`Date.now()`.  The result is always success-shaped, so the engine's
publish step performs the same actions under a dry-run result as under
a live success. -/
theorem c9_dry_run_no_side_effects (content : String)
    (replyTo : Option String) (nowMs : Nat) (liveResult : TweetResult)
    (liveId : String) :
    (sendTweet true content replyTo nowMs liveResult).1 = [] ∧
    (sendTweet true content replyTo nowMs liveResult).2 =
      dryRunTweetResult content replyTo nowMs ∧
    (sendTweet true content replyTo nowMs liveResult).2.ok = true ∧
    (sendNoteTweet true content replyTo nowMs liveResult).1 = [] ∧
    (sendNoteTweet true content replyTo nowMs liveResult).2.ok = true ∧
    (postLeagueTweet
      (Except.ok (sendTweet true content replyTo nowMs liveResult).2.rest_id)
      (ReplyOutcome.posted "r")).1 =
    (postLeagueTweet (Except.ok liveId) (ReplyOutcome.posted "r")).1 :=
  ⟨rfl, rfl, rfl, rfl, rfl, rfl⟩

/-! ## The event source (`azuro.ts`): `safeAPICall` and
`AzuroProvider.getGames` -/

/-- A league's configuration entry in the `leagues` table of azuro.ts
(the fields `getGames` reads), plus that league's `leagueTitles`
options. -/
structure LeagueInfo where
  name : String
  leagueId : String
  timeZones : List (String × String)
  titles : List String
  image : String
deriving DecidableEq, Repr

/-- azuro.ts `TweetData`. -/
structure TweetData where
  text : String
  sportSlug : String
  countrySlug : String
  leagueSlug : String
  leagueId : String
  games : List Game
  attachments : List (String × String)
deriving DecidableEq, Repr

/-- The result shape of `AzuroProvider.getGames`. -/
structure GamesResult where
  tweets : List TweetData
deriving DecidableEq, Repr

/-- The retry loop of `safeAPICall` (azuro.ts lines 48–94) as called by
`getLeagueEvents` (`maxRetries = 3`, `throwOnError = false`): attempts
are tried in order; the first success is returned; when all attempts
fail (`retries > maxRetries`), the `defaultValue` is returned — nothing
is ever thrown.  The caller passes the list of outcomes of the (at
most `maxRetries + 1 = 4`) attempts actually made. -/
def safeAPICallRun {α : Type} : List (Except String α) → α → α
  | [], dflt => dflt
  | .ok v :: _, _ => v
  | .error _ :: rest, dflt => safeAPICallRun rest dflt

/-- The ordering `getGames` sorts a league's events by:
`events.sort((a, b) => Number(a.startsAt) - Number(b.startsAt))`
(azuro.ts line 297). -/
def gameStartLe (a b : Game) : Prop := a.startsAt ≤ b.startsAt

instance : DecidableRel gameStartLe := fun a b => Nat.decLe a.startsAt b.startsAt

instance : IsTotal Game gameStartLe := ⟨fun a b => Nat.le_total a.startsAt b.startsAt⟩

instance : IsTrans Game gameStartLe := ⟨fun _ _ _ => Nat.le_trans⟩

/-- azuro.ts `convertUnixTimeToZone` (lines 186–202): renders a Unix
second timestamp in one of the league's timezones.  The
`Intl.DateTimeFormat` rendering (including the BST/GMT label switch for
Europe/London) is the abstract collaborator `fmtZone`. -/
def convertUnixTimeToZone (fmtZone : Nat → String → String)
    (timestamp : Nat) (timeZone : String × String) : String :=
  fmtZone timestamp timeZone.1 ++ " " ++ timeZone.2

/-- One formatted game line (azuro.ts line 330): `vs` for EPL, `@` for
the US leagues. -/
def gameLine (leagueName : String) (g : Game) : String :=
  let separator := if leagueName == "EPL" then "vs" else "@"
  "- " ++ g.participants.getD 0 "" ++ " " ++ separator ++ " "
    ++ g.participants.getD 1 "" ++ "\n"

/-- One time group's block (azuro.ts lines 316–331): the start time
rendered in every configured timezone joined by " / ", then one line per
game of the group. -/
def timeGroupBlock (fmtZone : Nat → String → String) (info : LeagueInfo)
    (grp : List Game) : String :=
  match grp with
  | [] => ""
  | g :: _ =>
    String.intercalate " / "
        (info.timeZones.map (convertUnixTimeToZone fmtZone g.startsAt))
      ++ "\n" ++ String.join (grp.map (gameLine info.name))

/-- The per-group formatting loop (azuro.ts lines 315–337): an extra
blank line between time groups, none after the last. -/
def formatTimeGroups (fmtZone : Nat → String → String) (info : LeagueInfo) :
    List (List Game) → String
  | [] => ""
  | [grp] => timeGroupBlock fmtZone info grp
  | grp :: rest =>
    timeGroupBlock fmtZone info grp ++ "\n" ++ formatTimeGroups fmtZone info rest

/-- The per-league tweet construction inside `getGames` (azuro.ts lines
291–370): sort the events ascending by `startsAt`, draw a title
(`titleIdx` models the `Math.random()` draw), group consecutive events
by identical start time, format the text, take `firstGame = events[0]`
of the sorted list for the slug fields, attach the league image when
present on disk (`imageExists` models `fs.existsSync`).  The `none`
branch mirrors the `return null … .filter(Boolean)` guard of the
source, which is unreachable for the non-empty event lists this is
called on. -/
def mkTweetData (fmtZone : Nat → String → String) (titleIdx : Nat)
    (imageExists : Bool) (info : LeagueInfo) (events : List Game) :
    Option TweetData :=
  let sorted := List.insertionSort gameStartLe events
  let randomTitle := info.titles.getD (titleIdx % info.titles.length) ""
  let timeGroups := sorted.splitBy fun a b => a.startsAt == b.startsAt
  sorted.head?.map fun firstGame =>
    { text := randomTitle ++ "\n\n" ++ formatTimeGroups fmtZone info timeGroups
      sportSlug := firstGame.sportSlug
      countrySlug := firstGame.countrySlug
      leagueSlug := firstGame.leagueSlug
      leagueId := info.leagueId
      games := sorted
      attachments :=
        if imageExists then [("assets/" ++ info.image, "image/png")] else [] }

/-- One league to fetch, with the outcomes of the GraphQL attempts its
`getLeagueEvents` call will observe. -/
structure FetchedLeague where
  info : LeagueInfo
  attempts : List (Except String (List Game))

/-- The method `AzuroProvider.getGames` (azuro.ts lines 254–386) over the leagues
`leaguesToFetch` resolves to: fetch each league's events through
`safeAPICallRun` (the `getLeagueEvents` call: `maxRetries = 3`, default
`{ data: { games: [] } }`, `throwOnError = false`), keep the leagues
with a non-empty batch, and build one `TweetData` per such league.  The
surrounding `try { … } catch { return { tweets: [] } }` never fires:
every internal failure path already produces a value, so the function
is total and never throws to its caller. -/
def getGames (fmtZone : Nat → String → String) (titleIdx : Nat)
    (imageExists : Bool) (batches : List FetchedLeague) : GamesResult :=
  let results := batches.map fun b => (b.info, safeAPICallRun (b.attempts.take 4) [])
  let leaguesWithGames := results.filter fun r => !r.2.isEmpty
  ⟨leaguesWithGames.filterMap fun r => mkTweetData fmtZone titleIdx imageExists r.1 r.2⟩

/-- When every attempt fails, `safeAPICallRun` returns the default. -/
theorem safeAPICallRun_allFail {α : Type} (l : List (Except String α))
    (dflt : α) (hfail : ∀ a ∈ l, ∃ e, a = Except.error e) :
    safeAPICallRun l dflt = dflt := by
  induction l with
  | nil => rfl
  | cons hd tl ih =>
    obtain ⟨e, he⟩ := hfail hd (List.mem_cons_self hd tl)
    subst he
    exact ih fun a ha => hfail a (List.mem_cons_of_mem _ ha)

/-- C8 — confirmed.  `AzuroProvider.getGames` never throws to its
caller (in this embedding it is a total function: `safeAPICall` is
called with `throwOnError = false` and the whole body sits in a
`try`/`catch` returning `{ tweets: [] }`), and when every GraphQL
attempt fails — i.e. the bounded retries are exhausted for every league
— it returns the empty result `{ tweets: [] }`. -/
theorem c8_fetch_failures_give_empty_result
    (fmtZone : Nat → String → String) (titleIdx : Nat) (imageExists : Bool)
    (batches : List FetchedLeague)
    (hfail : ∀ b ∈ batches, ∀ a ∈ b.attempts, ∃ e, a = Except.error e) :
    getGames fmtZone titleIdx imageExists batches = ⟨[]⟩ := by
  have hempty : (batches.map fun b =>
      (b.info, safeAPICallRun (b.attempts.take 4) ([] : List Game))).filter
        (fun r => !r.2.isEmpty) = [] := by
    rw [List.filter_eq_nil_iff]
    intro r hr
    simp only [List.mem_map] at hr
    obtain ⟨b, hb, rfl⟩ := hr
    rw [safeAPICallRun_allFail _ _
      (fun a ha => hfail b hb a (List.mem_of_mem_take ha))]
    simp
  show GamesResult.mk (((batches.map fun b =>
      (b.info, safeAPICallRun (b.attempts.take 4) ([] : List Game))).filter
        fun r => !r.2.isEmpty).filterMap
          fun r => mkTweetData fmtZone titleIdx imageExists r.1 r.2) = ⟨[]⟩
  rw [hempty]
  rfl

/-- C8 — witness for `c8_fetch_failures_give_empty_result`: one league
whose single GraphQL attempt fails. -/
theorem c8_witness :
    getGames (fun _ _ => "") 0 false
      [⟨⟨"EPL", "33_England_Premier League", [("Europe/London", "GMT")],
        ["PREMIER LEAGUE ACTION! x"], "EPL_GAMEDAY.png"⟩,
        [Except.error "HTTP error 500"]⟩] = ⟨[]⟩ :=
  c8_fetch_failures_give_empty_result (fun _ _ => "") 0 false _ (by
    intro b hb a ha
    simp only [List.mem_singleton] at hb
    subst hb
    simp only [List.mem_singleton] at ha
    subst ha
    exact ⟨"HTTP error 500", rfl⟩)

/-- C10 — confirmed.  Every `TweetData` in the result of
`AzuroProvider.getGames` has a non-empty `games` list sorted ascending
by `startsAt`; in particular `games[0]` exists and is an earliest event
of the batch — the precondition `scheduleLeagueTweet` relies on. -/
theorem c10_games_sorted_nonempty (fmtZone : Nat → String → String)
    (titleIdx : Nat) (imageExists : Bool) (batches : List FetchedLeague)
    (td : TweetData)
    (htd : td ∈ (getGames fmtZone titleIdx imageExists batches).tweets) :
    List.Sorted gameStartLe td.games ∧
    ∃ g0, td.games.head? = some g0 ∧
      ∀ g ∈ td.games, g0.startsAt ≤ g.startsAt := by
  unfold getGames at htd
  simp only [List.mem_filterMap] at htd
  obtain ⟨r, _, hmk⟩ := htd
  simp only [mkTweetData, Option.map_eq_some'] at hmk
  obtain ⟨g0, hhead, hrec⟩ := hmk
  have hsorted := List.sorted_insertionSort gameStartLe r.2
  have hgames : td.games = List.insertionSort gameStartLe r.2 := by
    rw [← hrec]
  cases hsl : List.insertionSort gameStartLe r.2 with
  | nil =>
    rw [hsl] at hhead
    cases hhead
  | cons a tl =>
    rw [hsl] at hhead hgames hsorted
    simp only [List.head?_cons, Option.some.injEq] at hhead
    subst hhead
    rw [hgames]
    refine ⟨hsorted, a, rfl, ?_⟩
    intro g hg
    rcases List.mem_cons.mp hg with hg0 | hgrest
    · rw [hg0]
    · exact List.rel_of_sorted_cons hsorted g hgrest

/-- C10 — witness for `c10_games_sorted_nonempty`: a league whose fetch
succeeds with two games out of order; the resulting `TweetData` is
computed concretely and its membership discharged by evaluation. -/
theorem c10_witness :
    List.Sorted gameStartLe
      (((getGames (fun _ _ => "t") 0 false
        [⟨⟨"EPL", "id", [("Europe/London", "GMT")], ["TITLE"], "img"⟩,
          [Except.ok [⟨200, ["A", "B"], "s", "l", "c"⟩,
            ⟨100, ["C", "D"], "s", "l", "c"⟩]]⟩]).tweets).headD
        ⟨"", "", "", "", "", [], []⟩).games ∧
    ∃ g0,
      (((getGames (fun _ _ => "t") 0 false
        [⟨⟨"EPL", "id", [("Europe/London", "GMT")], ["TITLE"], "img"⟩,
          [Except.ok [⟨200, ["A", "B"], "s", "l", "c"⟩,
            ⟨100, ["C", "D"], "s", "l", "c"⟩]]⟩]).tweets).headD
        ⟨"", "", "", "", "", [], []⟩).games.head? = some g0 ∧
      ∀ g ∈ (((getGames (fun _ _ => "t") 0 false
        [⟨⟨"EPL", "id", [("Europe/London", "GMT")], ["TITLE"], "img"⟩,
          [Except.ok [⟨200, ["A", "B"], "s", "l", "c"⟩,
            ⟨100, ["C", "D"], "s", "l", "c"⟩]]⟩]).tweets).headD
        ⟨"", "", "", "", "", [], []⟩).games,
        g0.startsAt ≤ g.startsAt :=
  c10_games_sorted_nonempty (fun _ _ => "t") 0 false
    [⟨⟨"EPL", "id", [("Europe/London", "GMT")], ["TITLE"], "img"⟩,
      [Except.ok [⟨200, ["A", "B"], "s", "l", "c"⟩,
        ⟨100, ["C", "D"], "s", "l", "c"⟩]]⟩]
    (((getGames (fun _ _ => "t") 0 false
      [⟨⟨"EPL", "id", [("Europe/London", "GMT")], ["TITLE"], "img"⟩,
        [Except.ok [⟨200, ["A", "B"], "s", "l", "c"⟩,
          ⟨100, ["C", "D"], "s", "l", "c"⟩]]⟩]).tweets).headD
      ⟨"", "", "", "", "", [], []⟩)
    (by decide)

end AzuroScheduler
